import Mathlib

/-!
# CloudDrop — verification of the transfer engine against its specification

Shallow embedding of the CloudDrop sources:

* `public/js/crypto.js` — `CryptoManager` (dual-layer chunk envelope, room password),
* `src/room.ts` — the `Room` durable object (`handleSetPassword`),
* `src/index.ts` — `handleWebSocket` / `generateRoomId` / `expandIPv6`,
* `public/js/config.js` — the constant tables,
* `public/js/app.js` — the transfer protocol (`_requestFileTransfer`,
  `_sendFileDataViaP2P`, `_sendFileDataViaRelay`, `handleRelayData`) and the
  connection engine's fast-fallback decision (`_shouldFastFallback`,
  `_hasP2PProgress`, `_raceP2PWithFallback`).

Machine integers do not occur (JS numbers here are small naturals); byte
strings are `List Nat` with every entry `< 256`.  External primitives
(WebCrypto AES-GCM, SHA-256/PBKDF2 digests) are parameters of the embedding:
theorems quantify over them, assuming only the properties the Web Crypto API
guarantees (AEAD decryption inverts encryption on byte strings).
-/

namespace CloudDrop

/-! ## Constants, from `public/js/config.js` -/

def CHUNK_SIZE : Nat := 64 * 1024
def CONNECTION_TIMEOUT : Nat := 10000
def FAST_FALLBACK_TIMEOUT : Nat := 5000
def SLOW_CONNECTION_THRESHOLD : Nat := 3000
def WINDOW_SIZE : Nat := 10
def ACK_TIMEOUT : Nat := 5000
def MAX_CHUNK_RETRIES : Nat := 3
def ACK_BATCH_SIZE : Nat := 5
def CHUNK_INTERVAL : Nat := 5
def TRANSFER_TIMEOUT : Nat := 30000
def PASSWORD_MIN_LENGTH : Nat := 6

/-! ## Crypto envelope, from `public/js/crypto.js` (`CryptoManager`)

AES-GCM itself is the Web Crypto API, external to the repository.  It is
modelled as an abstract cipher: `enc key iv plaintext` produces the
ciphertext bytes and `dec key iv ciphertext` returns `some plaintext` or
`none` (the thrown `OperationError` on AEAD authentication failure).  Keys
are opaque (`Nat`).  The fresh random 12-byte IVs drawn by
`crypto.getRandomValues` are passed in as arguments. -/

/-- Every entry of the list is a byte. -/
def IsBytes (l : List Nat) : Prop := ∀ b ∈ l, b < 256

instance : DecidablePred IsBytes := fun l =>
  inferInstanceAs (Decidable (∀ b ∈ l, b < 256))

/-- Abstract model of WebCrypto AES-GCM. -/
structure Cipher where
  enc : Nat → List Nat → List Nat → List Nat
  dec : Nat → List Nat → List Nat → Option (List Nat)

/-- The guarantees the Web Crypto API gives for AES-GCM: encryption produces
bytes, and decryption with the same key and IV restores the plaintext. -/
def Cipher.Good (c : Cipher) : Prop :=
  (∀ k iv m, IsBytes m → IsBytes (c.enc k iv m)) ∧
  (∀ k iv m, IsBytes m → c.dec k iv (c.enc k iv m) = some m)

/-- The room-password slice of `CryptoManager`'s state:
`this.roomKey` and `this.roomPasswordSet`. -/
structure CryptoState where
  roomKey : Option Nat
  roomPasswordSet : Bool
deriving DecidableEq

/-- `CryptoManager.hasRoomPassword`:
`this.roomPasswordSet && this.roomKey !== null`. -/
def hasRoomPassword (st : CryptoState) : Bool :=
  st.roomPasswordSet && st.roomKey.isSome

/-- A `CryptoManager` with no room password (fresh state or after
`clearRoomPassword`). -/
def noRoomState : CryptoState := ⟨none, false⟩

/-- A `CryptoManager` after a successful `setRoomPassword` derived key `rk`. -/
def withRoomKey (rk : Nat) : CryptoState := ⟨some rk, true⟩

/-- `CryptoManager.encryptChunk(peerId, chunk)`.
Layer 1 (optional): room-key AES-GCM; layer 2: peer-key AES-GCM.
Wire format: `[room_iv_length (1 byte)][room_iv (0 or 12 bytes)][peer_iv (12
bytes)][encrypted_data]`.  The byte written by `result[0] = roomIvLength`
is reduced mod 256, as a `Uint8Array` store does. -/
def encryptChunk (c : Cipher) (st : CryptoState) (peerKey : Nat)
    (roomIv peerIv : List Nat) (chunk : List Nat) : List Nat :=
  let layer1 : List Nat × Option (List Nat) :=
    if hasRoomPassword st then
      (c.enc (st.roomKey.getD 0) roomIv chunk, some roomIv)
    else (chunk, none)
  let encrypted := c.enc peerKey peerIv layer1.1
  match layer1.2 with
  | some riv => (riv.length % 256) :: (riv ++ (peerIv ++ encrypted))
  | none => 0 :: (peerIv ++ encrypted)

/-- `CryptoManager.decryptChunk(peerId, data)`.
Parses `[room_iv_length][room_iv][peer_iv][encrypted_data]`, peer-decrypts,
and applies the room layer only when `this.hasRoomPassword() && roomIv`.
On an empty input `dataArray[0]` is `undefined` and `undefined > 0` is
false, which coincides with `headD 0`. -/
def decryptChunk (c : Cipher) (st : CryptoState) (peerKey : Nat)
    (data : List Nat) : Option (List Nat) :=
  let roomIvLength := data.headD 0
  let rest := data.drop 1
  let roomIv : Option (List Nat) :=
    if roomIvLength > 0 then some (rest.take roomIvLength) else none
  let rest2 := if roomIvLength > 0 then rest.drop roomIvLength else rest
  let peerIv := rest2.take 12
  let encrypted := rest2.drop 12
  match c.dec peerKey peerIv encrypted with
  | none => none
  | some decrypted =>
    match roomIv with
    | some riv =>
      if hasRoomPassword st then c.dec (st.roomKey.getD 0) riv decrypted
      else some decrypted
    | none => some decrypted

/-- A concrete cipher satisfying `Cipher.Good` on byte strings, used to
instantiate counterexamples: encryption adds one to each byte mod 256. -/
def toyCipher : Cipher :=
  { enc := fun _ _ m => m.map (fun b => (b + 1) % 256)
    dec := fun _ _ ct => some (ct.map (fun b => (b + 255) % 256)) }

/-- A 12-byte all-zero IV for concrete instances. -/
def iv12 : List Nat := List.replicate 12 0

/-- `CryptoManager.setRoomPassword(password, roomCode)`: throws only when
`!password || !roomCode` (empty strings are falsy); otherwise derives the
room key by PBKDF2 (external; modelled as the opaque derivation inputs) and
sets `roomPasswordSet`.  The derived key is abstracted by the pair of
PBKDF2 inputs `(password, "clouddrop-room-" ++ roomCode)`. -/
def setRoomPassword (password roomCode : String) :
    Except String (String × String × Bool) :=
  if password = "" ∨ roomCode = "" then
    .error "Password and room code are required"
  else
    .ok (password, "clouddrop-room-" ++ roomCode, true)

/-- The validation prefix of `app.js` `createSecureRoom(roomCode, password)`:
a password shorter than `ROOM.PASSWORD_MIN_LENGTH` (6) or an invalid room
code makes it return `false` before `cryptoManager.setRoomPassword` is ever
called. -/
def isAlphanumericChar (ch : Char) : Bool :=
  ('a' ≤ ch && ch ≤ 'z') || ('A' ≤ ch && ch ≤ 'Z') || ('0' ≤ ch && ch ≤ '9')

/-- `/^[a-zA-Z0-9]{6}$/.test(s)` (`ROOM.CODE_PATTERN`). -/
def roomCodePatternTest (s : String) : Bool :=
  s.toList.length == 6 && s.toList.all isAlphanumericChar

/-- `createSecureRoom`'s local validation: `true` iff neither early-return
branch fires and the flow reaches `setRoomPassword`. -/
def createSecureRoomValidation (roomCode password : String) : Bool :=
  !(password = "" || password.length < PASSWORD_MIN_LENGTH) &&
    !(roomCode = "" || !roomCodePatternTest roomCode)

/-! ## Signaling hub room, from `src/room.ts` (`Room.handleSetPassword`)

The durable object's state is its stored `passwordHash : Option String`.
The request body is `none` when `request.json()` throws or the field is
missing/not a string, and `some h` for the supplied hash (where `h = ""` is
falsy and rejected by `!body.passwordHash`).  Method is POST. -/

structure SetPasswordResult where
  success : Bool
  error : Option String
deriving DecidableEq

/-- `Room.handleSetPassword` as a function from stored hash and request body
to the JSON response and the new stored hash. -/
def handleSetPassword (passwordHash : Option String) (body : Option String) :
    SetPasswordResult × Option String :=
  match passwordHash with
  | some h => (⟨false, some "Password already set for this room"⟩, some h)
  | none =>
    match body with
    | none => (⟨false, some "Invalid request body"⟩, none)
    | some h =>
      if h = "" then (⟨false, some "Invalid password hash"⟩, none)
      else (⟨true, none⟩, some h)

/-! ## Room resolution, from `src/index.ts`

`handleWebSocket` picks the room code: an explicit 6-character alphanumeric
`?room=` parameter wins (upper-cased); otherwise `generateRoomId(clientIP)`
is computed and `ipHash.substring(0, 6).toUpperCase()` becomes the code.
SHA-256 is external (`crypto.subtle.digest`); it is a parameter
`digest : String → List Nat` returning the 32 digest bytes.  String
manipulation is carried out on `List Char` (all inputs are ASCII). -/

/-- JS `s.split(c)` for a single-character separator, on char lists. -/
def splitOnChar (c : Char) : List Char → List (List Char)
  | [] => [[]]
  | ch :: rest =>
    let r := splitOnChar c rest
    if ch = c then [] :: r
    else
      match r with
      | [] => [[ch]]
      | g :: gs => (ch :: g) :: gs

/-- Splits at the first occurrence of `"::"`, JS `ip.split('::')` restricted
to well-formed IPv6 inputs (at most one `"::"`): `some (left, right)` when
present. -/
def findDoubleColon : List Char → Option (List Char × List Char)
  | [] => none
  | [_] => none
  | a :: b :: rest =>
    if a = ':' ∧ b = ':' then some ([], rest)
    else (findDoubleColon (b :: rest)).map (fun p => (a :: p.1, p.2))

/-- JS `s.substring(0, s.lastIndexOf(c))`: the characters strictly before the
last occurrence of `c` (empty when `c` does not occur, matching
`substring(0, -1)`). -/
def beforeLastChar (c : Char) (l : List Char) : List Char :=
  ((l.reverse.dropWhile (· ≠ c)).drop 1).reverse

/-- JS `g.padStart(4, '0')`. -/
def padStart4 (g : List Char) : List Char :=
  List.replicate (4 - g.length) '0' ++ g

/-- `expandIPv6(ip)` from `src/index.ts`: strips an IPv4-mapped suffix, then
expands a `::` abbreviation to eight zero-padded groups. -/
def expandIPv6 (ip : List Char) : List Char :=
  let ip := if ip.contains '.' then beforeLastChar ':' ip else ip
  match findDoubleColon ip with
  | some (l, r) =>
    let left := if l = [] then [] else splitOnChar ':' l
    let right := if r = [] then [] else splitOnChar ':' r
    let missing := 8 - left.length - right.length
    let full := left ++ List.replicate missing ['0', '0', '0', '0'] ++ right
    List.intercalate [':'] (full.map padStart4)
  | none => List.intercalate [':'] ((splitOnChar ':' ip).map padStart4)

/-- The network-part computation inside `generateRoomId(ip)`:
`'localhost'` for loopback/unknown, first three octets for IPv4, first four
groups of the expanded address for IPv6. -/
def networkPartChars (ip : List Char) : List Char :=
  if ip = "default".toList ∨ ip = "127.0.0.1".toList ∨ ip = "::1".toList then
    "localhost".toList
  else if ip.contains '.' ∧ ¬ ip.contains ':' then
    let parts := splitOnChar '.' ip
    if parts.length = 4 then List.intercalate ['.'] (parts.take 3) else ip
  else
    let expanded := expandIPv6 ip
    List.intercalate [':'] ((splitOnChar ':' expanded).take 4)

def networkPart (ip : String) : String :=
  String.mk (networkPartChars ip.toList)

/-- JS `b.toString(16).padStart(2, '0')` for a byte. -/
def jsHexByte (b : Nat) : List Char :=
  let s := Nat.toDigits 16 b
  List.replicate (2 - s.length) '0' ++ s

/-- `hashArray.map(b => b.toString(16).padStart(2, '0')).join('')`. -/
def hexOfBytes (bs : List Nat) : List Char :=
  (bs.map jsHexByte).flatten

/-- `generateRoomId(ip)` from `src/index.ts`: SHA-256 of the network part,
then `hashArray.slice(0, 8)` rendered as hex — sixteen hex characters. -/
def generateRoomIdChars (digest : String → List Nat) (ip : List Char) :
    List Char :=
  hexOfBytes ((digest (String.mk (networkPartChars ip))).take 8)

def generateRoomId (digest : String → List Nat) (ip : String) : String :=
  String.mk (generateRoomIdChars digest ip.toList)

/-- The auto-assignment branch of `handleWebSocket`:
`roomCode = ipHash.substring(0, 6).toUpperCase()`. -/
def wsAutoRoomCode (digest : String → List Nat) (ip : String) : String :=
  String.mk (((generateRoomIdChars digest ip.toList).take 6).map Char.toUpper)

/-- `handleWebSocket`'s room-code resolution: a `?room=` parameter matching
`/^[a-zA-Z0-9]{6}$/` is upper-cased, anything else falls back to the
IP-derived code. -/
def wsRoomCode (digest : String → List Nat) (explicitRoom : Option String)
    (ip : String) : String :=
  match explicitRoom with
  | some r =>
    if roomCodePatternTest r then String.mk (r.toList.map Char.toUpper)
    else wsAutoRoomCode digest ip
  | none => wsAutoRoomCode digest ip

/-- Modelled from the spec: the claim's description of the auto-assigned
room code — hash the network part with SHA-256 and take the first hex
digits of the digest, upper-cased, as the code.  `digitCount` is the
number of hex digits taken (the claim says eight; the code takes six). -/
def specAutoRoomCode (digest : String → List Nat) (ip : String)
    (digitCount : Nat) : String :=
  String.mk
    (((hexOfBytes (digest (networkPart ip))).take digitCount).map Char.toUpper)

/-! ## Transfer sizing and direct-path streaming, from `public/js/app.js`

`Math.ceil(file.size / CHUNK_SIZE)` on a float; for file sizes below 2^53
this is the exact natural-number ceiling, modelled exactly. -/

/-- `totalChunks` as computed by `_requestFileTransfer` and the senders. -/
def requestTotalChunks (size : Nat) : Nat :=
  (size + CHUNK_SIZE - 1) / CHUNK_SIZE

/-- The frames `_sendFileDataViaP2P` writes to the data channel (progress
callbacks and encryption payloads elided; the chunk frame records the
offset its plaintext starts at). -/
inductive P2PFrame
  | fileStart (size totalChunks : Nat)
  | chunk (offset : Nat)
  | fileEnd
deriving DecidableEq

/-- The chunk loop of `_sendFileDataViaP2P`:
`while (offset < file.size) { … ; offset += CHUNK_SIZE }`. -/
def p2pChunkLoop (size offset : Nat) : List P2PFrame :=
  if offset < size then .chunk offset :: p2pChunkLoop size (offset + CHUNK_SIZE)
  else []
termination_by size - offset
decreasing_by
  have : 0 < CHUNK_SIZE := by decide
  omega

/-- `_sendFileDataViaP2P` without cancellation: `file-start`, the chunk
loop, then `file-end`. -/
def sendFileDataViaP2P (size : Nat) : List P2PFrame :=
  .fileStart size (requestTotalChunks size) :: (p2pChunkLoop size 0 ++ [.fileEnd])

/-! ## Connection quality and fast fallback, from `public/js/app.js` -/

/-- The set of ICE candidate types gathered for a peer
(`this.candidateTypes.get(peerId)`). -/
structure CandTypes where
  host : Bool
  srflx : Bool
  prflx : Bool
  relay : Bool
deriving DecidableEq

/-- `types.size === 0`. -/
def CandTypes.isEmpty (t : CandTypes) : Bool :=
  !(t.host || t.srflx || t.prflx || t.relay)

/-- The prediction record written by `_updateConnectionQuality` /
`_finalizeConnectionQuality` (fields absent from an object literal read back
as `undefined`, i.e. `false`). -/
structure ConnQuality where
  hasHost : Bool
  hasSrflx : Bool
  hasPrflx : Bool
  hasRelay : Bool
  p2pPossible : Bool
  p2pLikely : Bool
  networkIssue : Bool
deriving DecidableEq

/-- `_updateConnectionQuality`, run each time a candidate is gathered. -/
def updateConnectionQuality (types : CandTypes) : ConnQuality :=
  { hasHost := types.host
    hasSrflx := types.srflx
    hasPrflx := types.prflx
    hasRelay := types.relay
    p2pPossible := types.host || types.srflx || types.prflx
    p2pLikely := types.srflx || types.prflx
    networkIssue := false }

/-- `_finalizeConnectionQuality`, run when ICE gathering completes: with no
candidates at all the prediction is replaced by a `networkIssue` record. -/
def finalizeConnectionQuality (types : CandTypes) (q : Option ConnQuality) :
    Option ConnQuality :=
  if types.isEmpty then
    some { hasHost := false, hasSrflx := false, hasPrflx := false
           hasRelay := false, p2pPossible := false, p2pLikely := false
           networkIssue := true }
  else q

/-- `_shouldFastFallback(peerId)`; `none` models an absent
`connectionQuality` entry. -/
def shouldFastFallback (q : Option ConnQuality) : Bool :=
  match q with
  | some quality => (!quality.p2pPossible && quality.hasRelay) || quality.networkIssue
  | none => false

/-- `['new', 'checking', 'connected', 'completed'].includes(state)`. -/
def iceStateGood (s : String) : Bool :=
  s == "new" || s == "checking" || s == "connected" || s == "completed"

/-- `_hasP2PProgress(peerId)`: some non-relay candidate was gathered and the
peer connection exists with its ICE state in a good state. -/
def hasP2PProgress (types : Option CandTypes) (pcExists : Bool)
    (iceState : String) : Bool :=
  (match types with
   | some t => t.host || t.srflx || t.prflx
   | none => false) &&
  (pcExists && iceStateGood iceState)

/-- The decision evaluated inside the fast-fallback timer callback of
`_raceP2PWithFallback`:
`this._shouldFastFallback(peerId) || !this._hasP2PProgress(peerId)`. -/
def fastFallbackDecision (q : Option ConnQuality) (types : Option CandTypes)
    (pcExists : Bool) (iceState : String) : Bool :=
  shouldFastFallback q || !hasP2PProgress types pcExists iceState

/-- The timer structure of `_raceP2PWithFallback` for a run in which the
direct task neither succeeds nor fails and no ICE state-change events fire:
the quality prediction is consulted exactly once, when the fallback timer
fires at `FAST_FALLBACK_TIMEOUT`; if the decision declines, the only later
relay commit is the unconditional one at `CONNECTION_TIMEOUT`.  The value
is the time (ms after `ensureConnection`) at which `_switchToRelay` runs. -/
def relayCommitTime (decisionAtFallback : Bool) : Nat :=
  if decisionAtFallback then FAST_FALLBACK_TIMEOUT else CONNECTION_TIMEOUT

/-! ## Relay-path receiving, from `public/js/app.js` (`handleRelayData`)

Per-peer receiver state.  Decryption (`base64ToUint8Array` followed by
`cryptoManager.decryptChunk`) is abstracted by a parameter
`dec : List Nat → Option (List Nat)` on the raw payload; `none` models the
caught exception, on which no ACK is sent.  The sparse JS array
`transfer.chunks` is a map from index to chunk; file ids are opaque `Nat`.
The up-to-3-second wait for in-flight chunks inside the `file-end` branch
yields to the event loop, so late `chunk` frames are handled by further
`handleRelayData` invocations before the integrity check reads the state;
in this sequential model those late frames are simply the last `chunk`
events of the trace preceding the `file-end` event. -/

structure RecvTransfer where
  fileId : Nat
  totalChunks : Nat
  chunks : Nat → Option (List Nat)
  receivedIndices : List Nat
  pendingAcks : List Nat
  received : Nat

structure RecvState where
  relayMode : Bool
  transfer : Option RecvTransfer

/-- The relay-data frames relevant to receiving (the `data` field of a
`relay-data` signaling message). -/
inductive RecvEvent
  | fileStart (fileId totalChunks : Nat)
  | chunk (fileId index : Nat) (payload : List Nat)
  | fileEnd (fileId totalChunks : Nat)
  | ackFrame (fileId : Nat) (acks : List Nat)
  | textMsg (content : String)

/-- Observable effects of `handleRelayData`, in emission order. -/
inductive RecvOut
  | notify (status : String) (message : Option String)
  | ackSent (fileId : Nat) (acks : List Nat)
  | delivered (fileId : Nat) (assembled : List (Nat × List Nat))
      (missing : List Nat)
  | retryLoopStarted
deriving DecidableEq

/-- `_switchToRelay(peerId, message, silent)`: on a first switch it sets
relay mode, notifies (`null` message when silent) and starts the background
P2P retry loop; otherwise it only logs. -/
def switchToRelay (st : RecvState) (message : Option String) (silent : Bool) :
    RecvState × List RecvOut :=
  if st.relayMode then (st, [])
  else
    ({ st with relayMode := true },
     [.notify "relay" (if silent then none else message), .retryLoopStarted])

/-- The body of `handleRelayData` after the relay-mode prefix: dispatch on
`data.type`.  The `file-start` branch is the fresh/confirmed
initialisation (both reset `chunks`, `receivedIndices` and `received`); the
`ack` branch drives the sender's `handleRelayAck` (modelled separately) and
the `text` branch only invokes a callback, so both leave this state
untouched. -/
def relayPayloadStep (dec : List Nat → Option (List Nat)) (st : RecvState) :
    RecvEvent → RecvState × List RecvOut
  | .fileStart fid total =>
    let t : RecvTransfer :=
      { fileId := fid, totalChunks := total, chunks := fun _ => none
        receivedIndices := [], pendingAcks := [], received := 0 }
    ({ st with transfer := some t }, [])
  | .chunk fid i payload =>
    match st.transfer with
    | none => (st, [])
    | some t =>
      if t.fileId = fid then
        if t.receivedIndices.contains i then
          -- duplicate: dropped but still ACKed
          (st, [.ackSent fid [i]])
        else
          match dec payload with
          | none => (st, [])
          | some bytes =>
            let t' : RecvTransfer :=
              { t with
                chunks := fun j => if j = i then some bytes else t.chunks j
                received := t.received + bytes.length
                receivedIndices := t.receivedIndices ++ [i]
                pendingAcks := t.pendingAcks ++ [i] }
            if ACK_BATCH_SIZE ≤ t'.pendingAcks.length then
              ({ st with transfer := some ({ t' with pendingAcks := [] }) },
               [.ackSent fid t'.pendingAcks])
            else ({ st with transfer := some t' }, [])
      else (st, [])
  | .fileEnd _ total =>
    match st.transfer with
    | none => (st, [])
    | some t =>
      let flushed :=
        if t.pendingAcks ≠ [] then [RecvOut.ackSent t.fileId t.pendingAcks]
        else []
      -- `data.totalChunks || transfer.totalChunks` (JS `||` on numbers)
      let expected := if total = 0 then t.totalChunks else total
      let receivedCount := t.receivedIndices.length
      let missing :=
        if receivedCount ≠ expected then
          (List.range expected).filter (fun i => ¬ t.receivedIndices.contains i)
        else []
      let assembled :=
        (List.range expected).filterMap
          (fun i => (t.chunks i).map (fun b => (i, b)))
      ({ st with transfer := none },
       flushed ++ [.delivered t.fileId assembled missing])
  | .ackFrame _ _ => (st, [])
  | .textMsg _ => (st, [])

/-- `handleRelayData(peerId, data)`: any relay-data frame from a peer not
yet marked as relay first sets relay mode and notifies the observer with a
`null` message (badge update, no toast) — without `_switchToRelay`, hence
without starting the background P2P retry loop — and then processes the
payload. -/
def handleRelayData (dec : List Nat → Option (List Nat)) (st : RecvState)
    (ev : RecvEvent) : RecvState × List RecvOut :=
  if st.relayMode then relayPayloadStep dec st ev
  else
    let r := relayPayloadStep dec { st with relayMode := true } ev
    (r.1, .notify "relay" none :: r.2)

/-- Runs `handleRelayData` over a trace of frames, concatenating outputs. -/
def runRelayRecv (dec : List Nat → Option (List Nat)) (st : RecvState) :
    List RecvEvent → RecvState × List RecvOut
  | [] => (st, [])
  | ev :: rest =>
    let r := handleRelayData dec st ev
    let r2 := runRelayRecv dec r.1 rest
    (r2.1, r.2 ++ r2.2)

/-- A freshly created receiver (peer not in relay mode, no transfer). -/
def recvState0 : RecvState := { relayMode := false, transfer := none }

/-! ## Relay-path sending, from `public/js/app.js` (`_sendFileDataViaRelay`)

A small-step interpreter over the sender's loop.  Time advances only at the
`await` sleeps (50 ms in the window-full wait, `CHUNK_INTERVAL` between
chunks, 100 ms in the final ACK wait, the 500 ms settle delay); the
environment is a schedule `env : List (List Nat)` giving, for the n-th
sleep of the run, the chunk indices whose ACK frames arrive during it
(`handleRelayAck` marks them acknowledged, deletes them from
`pendingChunks` and refreshes `lastAckTime`).  Encryption payloads are
elided — the chunk frame records index and retry flag, which is all the
claim concerns.  Loops take explicit fuel; exhausting it yields a marker
distinct from the JS outcomes. -/

/-- An entry of `transfer.pendingChunks` (`{base64, retries, sentAt}`,
payload elided). -/
structure PendInfo where
  retries : Nat
  sentAt : Nat
deriving DecidableEq

/-- Frames the relay sender emits (`_sendChunk` passes `retry = retryCount > 0`). -/
inductive RelayFrame
  | fileStart
  | chunk (index : Nat) (retry : Bool)
  | fileEnd
deriving DecidableEq

structure SendState where
  now : Nat
  lastAckTime : Nat
  chunkIndex : Nat
  pending : List (Nat × PendInfo)
  acked : List Nat
  sleeps : Nat
  out : List RelayFrame
deriving DecidableEq

inductive SendOutcome
  | ok (s : SendState)
  | failed (err : String) (s : SendState)
  | outOfFuel (s : SendState)
deriving DecidableEq

/-- One `await` of `dur` ms: time advances, and the ACK frames the schedule
delivers during the sleep are processed as `handleRelayAck` does
(`ackedChunks.add`, `pendingChunks.delete`, `lastAckTime = Date.now()`). -/
def sleepStep (env : List (List Nat)) (st : SendState) (dur : Nat) : SendState :=
  let acks := env.getD st.sleeps []
  let now' := st.now + dur
  if acks.isEmpty then { st with now := now', sleeps := st.sleeps + 1 }
  else
    { st with
      now := now'
      sleeps := st.sleeps + 1
      acked := acks.foldl (fun a i => if a.contains i then a else a ++ [i]) st.acked
      pending := st.pending.filter (fun p => ¬ acks.contains p.1)
      lastAckTime := now' }

/-- `_getOldestPendingChunk(transfer)`: minimum `sentAt` under strict
comparison, first-inserted wins ties (JS `Map` iterates in insertion
order). -/
def getOldestPendingChunk (l : List (Nat × PendInfo)) : Option (Nat × PendInfo) :=
  l.foldl
    (fun acc p =>
      match acc with
      | none => some p
      | some q => if p.2.sentAt < q.2.sentAt then some p else some q)
    none

/-- The flow-control wait `while (transfer.pendingChunks.size >= WINDOW_SIZE)`:
on each pass, if no ACK arrived for more than `ACK_TIMEOUT`, the oldest
pending chunk is retransmitted with `retry = true` and its counter
incremented — unless its counter already reached `MAX_CHUNK_RETRIES`, which
fails the transfer — and then the loop sleeps 50 ms. -/
def windowWaitLoop (env : List (List Nat)) : Nat → SendState → SendOutcome
  | 0, st => .outOfFuel st
  | fuel + 1, st =>
    if st.pending.length < WINDOW_SIZE then .ok st
    else
      if ACK_TIMEOUT < st.now - st.lastAckTime then
        match getOldestPendingChunk st.pending with
        | none => windowWaitLoop env fuel (sleepStep env st 50)
        | some (i, info) =>
          if MAX_CHUNK_RETRIES ≤ info.retries then
            .failed "RelayRetransmitExhausted" st
          else
            let st' :=
              { st with
                out := st.out ++ [.chunk i true]
                pending := st.pending.map
                  (fun p => if p.1 = i then (i, ⟨info.retries + 1, st.now⟩) else p) }
            windowWaitLoop env fuel (sleepStep env st' 50)
      else windowWaitLoop env fuel (sleepStep env st 50)

/-- The main sending loop `while (offset < file.size)`, indexed by chunk
count (`offset < size` iff `chunkIndex < totalChunks`): window wait,
stall check, send chunk `chunkIndex` with `retry = false`, record it
pending, pace by `CHUNK_INTERVAL`. -/
def relaySendLoop (env : List (List Nat)) (totalChunks : Nat) :
    Nat → SendState → SendOutcome
  | 0, st => .outOfFuel st
  | fuel + 1, st =>
    if st.chunkIndex < totalChunks then
      match windowWaitLoop env fuel st with
      | .ok st1 =>
        if TRANSFER_TIMEOUT < st1.now - st1.lastAckTime ∧ 0 < st1.chunkIndex then
          .failed "RelayStalled" st1
        else
          let st2 :=
            { st1 with
              out := st1.out ++ [.chunk st1.chunkIndex false]
              pending := st1.pending ++ [(st1.chunkIndex, ⟨0, st1.now⟩)]
              chunkIndex := st1.chunkIndex + 1 }
          relaySendLoop env totalChunks fuel (sleepStep env st2 CHUNK_INTERVAL)
      | r => r
  else .ok st

/-- The post-loop wait for outstanding ACKs: bounded by `ACK_TIMEOUT * 2`
from its start, polling every 100 ms, then `break` (no retransmission
here). -/
def ackWaitLoop (env : List (List Nat)) (totalChunks ackWaitStart : Nat) :
    Nat → SendState → SendOutcome
  | 0, st => .outOfFuel st
  | fuel + 1, st =>
    if st.acked.length < totalChunks then
      if ACK_TIMEOUT * 2 < st.now - ackWaitStart then .ok st
      else ackWaitLoop env totalChunks ackWaitStart fuel (sleepStep env st 100)
    else .ok st

/-- `_sendFileDataViaRelay` (cancellation and the key-exchange preamble
elided): `file-start`, the chunk loop, the final ACK wait, a 500 ms settle
delay, then `file-end`. -/
def sendFileDataViaRelay (env : List (List Nat)) (totalChunks fuel : Nat) :
    SendOutcome :=
  let st0 : SendState :=
    { now := 0, lastAckTime := 0, chunkIndex := 0, pending := [], acked := []
      sleeps := 0, out := [.fileStart] }
  match relaySendLoop env totalChunks fuel st0 with
  | .ok st =>
    match ackWaitLoop env totalChunks st.now fuel st with
    | .ok st2 =>
      let st3 := sleepStep env st2 500
      .ok { st3 with out := st3.out ++ [.fileEnd] }
    | r => r
  | r => r

/-- The frame log of an outcome, whatever its constructor. -/
def SendOutcome.outFrames : SendOutcome → List RelayFrame
  | .ok s => s.out
  | .failed _ s => s.out
  | .outOfFuel s => s.out

/-- The ACK schedule of the spec's lost-chunk scenario for a 10-chunk
transfer: the receiver's batched ACK for chunks 0–4 arrives during the
pacing sleep after chunk 5 is sent, the ACKs for 6–9 during the sleep after
chunk 9; chunk 5 is never acknowledged. -/
def lostChunkEnv : List (List Nat) :=
  [[], [], [], [], [], [0, 1, 2, 3, 4], [], [], [], [6, 7, 8, 9]]

/-- An ACK schedule that never delivers anything (receiver unreachable). -/
def silentEnv : List (List Nat) := []

/-- The state carried by an outcome, whatever its constructor. -/
def SendOutcome.finalState : SendOutcome → SendState
  | .ok s => s
  | .failed _ s => s
  | .outOfFuel s => s

/-- The error of a failed outcome. -/
def SendOutcome.errName : SendOutcome → Option String
  | .failed e _ => some e
  | _ => none

def SendOutcome.isOk : SendOutcome → Bool
  | .ok _ => true
  | _ => false

/-- No chunk frame in the log carries `retry = true`. -/
def NoRetryFrames (l : List RelayFrame) : Prop :=
  ∀ i : Nat, RelayFrame.chunk i true ∉ l

/-- Gathered candidate set containing only `relay` candidates. -/
def relayOnlyTypes : CandTypes :=
  { host := false, srflx := false, prflx := false, relay := true }

/-- A concrete stand-in digest for counterexample instances: the bytes
`0, 1, …, 31`. -/
def digestCex : String → List Nat := fun _ => List.range 32

/-- The receiver-transfer invariant maintained by the chunk branch of
`handleRelayData`: indices are recorded without duplicates, exactly the
recorded indices hold a stored chunk, and all of them are in range. -/
def RecvTransfer.Inv (t : RecvTransfer) (fid total : Nat) : Prop :=
  t.fileId = fid ∧ t.totalChunks = total ∧ t.receivedIndices.Nodup ∧
  (∀ i : Nat, i ∈ t.receivedIndices ↔ (t.chunks i).isSome) ∧
  (∀ i ∈ t.receivedIndices, i < total)

/-- The mid-transfer traffic of one relay transfer: chunk frames whose
index is in range whenever they belong to the transfer's file id. -/
def ChunkEventsFor (fid total : Nat) (evs : List RecvEvent) : Prop :=
  ∀ ev ∈ evs, ∃ fid' i payload,
    ev = RecvEvent.chunk fid' i payload ∧ (fid' = fid → i < total)

/-! ## Helper lemmas -/

theorem toyCipher_good : Cipher.Good toyCipher := by
  constructor
  · intro k iv m hm b hb
    simp only [toyCipher, List.mem_map] at hb
    obtain ⟨a, _, rfl⟩ := hb
    exact Nat.mod_lt _ (by norm_num)
  · intro k iv m hm
    simp only [toyCipher, List.map_map, Option.some.injEq]
    have : ∀ b ∈ m, ((fun x => (x + 255) % 256) ∘ fun x => (x + 1) % 256) b = id b := by
      intro b hb
      have hb' : b < 256 := hm b hb
      simp only [Function.comp_apply, id_eq]
      omega
    rw [List.map_congr_left this, List.map_id]

theorem encryptChunk_noRoom (c : Cipher) (pk : Nat) (roomIv peerIv P : List Nat) :
    encryptChunk c noRoomState pk roomIv peerIv P =
      0 :: (peerIv ++ c.enc pk peerIv P) := by
  simp [encryptChunk, hasRoomPassword, noRoomState]

theorem encryptChunk_withRoom (c : Cipher) (rk pk : Nat)
    (roomIv peerIv P : List Nat) (hr : roomIv.length = 12) :
    encryptChunk c (withRoomKey rk) pk roomIv peerIv P =
      12 :: (roomIv ++ (peerIv ++ c.enc pk peerIv (c.enc rk roomIv P))) := by
  simp [encryptChunk, hasRoomPassword, withRoomKey, hr]

theorem decryptChunk_zero (c : Cipher) (st : CryptoState) (pk : Nat)
    (peerIv ct : List Nat) (hp : peerIv.length = 12) :
    decryptChunk c st pk (0 :: (peerIv ++ ct)) = c.dec pk peerIv ct := by
  simp only [decryptChunk, List.headD_cons, List.drop_succ_cons, List.drop_zero,
    gt_iff_lt, Nat.lt_irrefl, if_false, List.take_left' hp, List.drop_left' hp]
  cases c.dec pk peerIv ct <;> simp

theorem decryptChunk_twelve (c : Cipher) (st : CryptoState) (pk : Nat)
    (roomIv peerIv ct : List Nat) (hr : roomIv.length = 12)
    (hp : peerIv.length = 12) :
    decryptChunk c st pk (12 :: (roomIv ++ (peerIv ++ ct))) =
      match c.dec pk peerIv ct with
      | none => none
      | some d =>
        if hasRoomPassword st then c.dec (st.roomKey.getD 0) roomIv d
        else some d := by
  simp only [decryptChunk, List.headD_cons, List.drop_succ_cons, List.drop_zero,
    gt_iff_lt, Nat.zero_lt_succ, if_true, List.take_left' hr, List.drop_left' hr,
    List.take_left' hp, List.drop_left' hp]

/-! ## C1 — encrypt/decrypt round-trip -/

/-- C1 (counterexample).  The claim asserts the round-trip also when only
the sender holds a room key.  With a concrete good cipher (`toyCipher`, a
byte-wise shift satisfying the AES-GCM round-trip law), a sender holding a
room key and a receiver without one, `decryptChunk (encryptChunk [7])`
returns the still-room-encrypted byte `[8]`, not `[7]`. -/
theorem C1_counterexample :
    Cipher.Good toyCipher ∧
      decryptChunk toyCipher noRoomState 0
        (encryptChunk toyCipher (withRoomKey 0) 0 iv12 iv12 [7]) = some [8] ∧
      some [8] ≠ some ([7] : List Nat) :=
  ⟨toyCipher_good, by decide, by decide⟩

/-- C1 (amended).  For any cipher satisfying the AES-GCM round-trip law,
any byte chunk `P` (any length, in particular `0 ≤ |P| ≤ 1 MiB`) and fresh
12-byte IVs, `decryptChunk (encryptChunk P) = P` holds byte for byte when
the sender has no room key (whatever room state the receiver has, a room
key included) and when both sides hold the same room key; the case of a
sender-only room key is excluded (see the counterexample). -/
theorem C1_roundtrip_amended (c : Cipher) (hc : c.Good) (pk : Nat)
    (roomIv peerIv P : List Nat) (hP : IsBytes P)
    (hr : roomIv.length = 12) (hp : peerIv.length = 12) :
    (∀ recvSt : CryptoState,
      decryptChunk c recvSt pk
        (encryptChunk c noRoomState pk roomIv peerIv P) = some P) ∧
    (∀ rk : Nat,
      decryptChunk c (withRoomKey rk) pk
        (encryptChunk c (withRoomKey rk) pk roomIv peerIv P) = some P) := by
  constructor
  · intro recvSt
    rw [encryptChunk_noRoom, decryptChunk_zero c recvSt pk peerIv _ hp]
    exact hc.2 pk peerIv P hP
  · intro rk
    rw [encryptChunk_withRoom c rk pk roomIv peerIv P hr,
      decryptChunk_twelve c (withRoomKey rk) pk roomIv peerIv _ hr hp]
    rw [hc.2 pk peerIv _ (hc.1 rk roomIv P hP)]
    simp [hasRoomPassword, withRoomKey, hc.2 rk roomIv P hP]

/-- C1 (witness): the amended round-trip evaluated at the concrete good
cipher, key 0, zero IVs and chunk `[7]`, receiver holding a room key for a
sender without one. -/
theorem C1_witness :
    IsBytes [7] ∧
      decryptChunk toyCipher (withRoomKey 3) 0
        (encryptChunk toyCipher noRoomState 0 iv12 iv12 [7]) = some [7] :=
  ⟨by decide,
   (C1_roundtrip_amended toyCipher toyCipher_good 0 iv12 iv12 [7]
     (by decide) (by decide) (by decide)).1 (withRoomKey 3)⟩

/-! ## C2 — room-layer handling on receive -/

/-- C2 (counterexample).  The claim asserts that a chunk with
`roomIvLen > 0` received without a room key fails with `RoomKeyMissing`
and yields no plaintext.  In the code no such error exists: with the
concrete good cipher the receiver-side `decryptChunk` succeeds (returns
`some …`), silently skipping the room layer. -/
theorem C2_counterexample :
    (decryptChunk toyCipher noRoomState 0
      (encryptChunk toyCipher (withRoomKey 0) 0 iv12 iv12 [7])).isSome = true :=
  by decide

/-- C2 (amended).  If `roomIvLen > 0` and the receiver has no room key,
`decryptChunk` does not fail: the room layer is silently skipped and the
peer-decrypted — hence still room-encrypted — bytes are returned.  If
`roomIvLen == 0`, the chunk is accepted (plaintext restored) even when the
receiver does have a room key set. -/
theorem C2_room_layer_amended (c : Cipher) (hc : c.Good) (pk rk rk2 : Nat)
    (roomIv peerIv P : List Nat) (hP : IsBytes P)
    (hr : roomIv.length = 12) (hp : peerIv.length = 12) :
    decryptChunk c noRoomState pk
        (encryptChunk c (withRoomKey rk) pk roomIv peerIv P) =
      some (c.enc rk roomIv P) ∧
    decryptChunk c (withRoomKey rk2) pk
        (encryptChunk c noRoomState pk roomIv peerIv P) = some P := by
  constructor
  · rw [encryptChunk_withRoom c rk pk roomIv peerIv P hr,
      decryptChunk_twelve c noRoomState pk roomIv peerIv _ hr hp]
    rw [hc.2 pk peerIv _ (hc.1 rk roomIv P hP)]
    simp [hasRoomPassword, noRoomState]
  · rw [encryptChunk_noRoom, decryptChunk_zero c _ pk peerIv _ hp]
    exact hc.2 pk peerIv P hP

/-- C2 (witness): the amended statement at the concrete good cipher and
chunk `[7]`. -/
theorem C2_witness :
    IsBytes [7] ∧
      decryptChunk toyCipher noRoomState 0
        (encryptChunk toyCipher (withRoomKey 0) 0 iv12 iv12 [7]) =
        some (toyCipher.enc 0 iv12 [7]) :=
  ⟨by decide,
   (C2_room_layer_amended toyCipher toyCipher_good 0 0 1 iv12 iv12 [7]
     (by decide) (by decide) (by decide)).1⟩

/-! ## C5 — room password hash immutability -/

/-- C5.  Once a password hash is stored for a room, every subsequent
set-password request returns `success: false` and leaves the stored hash
unchanged; a first request with a valid (non-empty) hash returns
`success: true` and stores it. -/
theorem C5_password_hash_immutable (stored : String) (body : Option String) :
    (handleSetPassword (some stored) body).1.success = false ∧
    (handleSetPassword (some stored) body).2 = some stored ∧
    (∀ h : String, h ≠ "" →
      handleSetPassword none (some h) = (⟨true, none⟩, some h)) := by
  refine ⟨rfl, rfl, ?_⟩
  intro h hh
  simp [handleSetPassword, hh]

/-- C5 (witness): a second set-password request against a stored hash
fails and preserves it; the first request stored it. -/
theorem C5_witness :
    "cafe01" ≠ "" ∧
      (handleSetPassword (some "cafe01") (some "beef02")).1.success = false ∧
      (handleSetPassword (some "cafe01") (some "beef02")).2 = some "cafe01" ∧
      handleSetPassword none (some "cafe01") = (⟨true, none⟩, some "cafe01") :=
  ⟨by decide,
   (C5_password_hash_immutable "cafe01" (some "beef02")).1,
   (C5_password_hash_immutable "cafe01" (some "beef02")).2.1,
   (C5_password_hash_immutable "cafe01" (some "beef02")).2.2 "cafe01" (by decide)⟩

/-! ## C8 — chunk counts and the empty file -/

/-- C8.  `totalChunks = ceil(size / ChunkSize)` with a 64 KiB chunk: size 0
gives 0 chunks and the direct path still emits `file-start` immediately
followed by `file-end`; size `ChunkSize` gives 1; size `ChunkSize + 1`
gives 2; and `requestTotalChunks` is the exact ceiling (the least chunk
count covering the file). -/
theorem C8_total_chunks :
    requestTotalChunks 0 = 0 ∧
    requestTotalChunks CHUNK_SIZE = 1 ∧
    requestTotalChunks (CHUNK_SIZE + 1) = 2 ∧
    sendFileDataViaP2P 0 = [.fileStart 0 0, .fileEnd] ∧
    (∀ size : Nat, size ≤ requestTotalChunks size * CHUNK_SIZE ∧
      ∀ n : Nat, size ≤ n * CHUNK_SIZE → requestTotalChunks size ≤ n) := by
  refine ⟨by decide, by decide, by decide, ?_, ?_⟩
  · rw [sendFileDataViaP2P, p2pChunkLoop]
    decide
  · intro size
    constructor
    · simp only [requestTotalChunks, CHUNK_SIZE]
      omega
    · intro n hn
      simp only [requestTotalChunks, CHUNK_SIZE] at *
      omega

/-- C8 (witness): the ceiling characterisation applied at a 100 KiB file:
two chunks cover it and two are needed. -/
theorem C8_witness :
    102400 ≤ requestTotalChunks 102400 * CHUNK_SIZE ∧
      requestTotalChunks 102400 ≤ 2 :=
  ⟨(C8_total_chunks.2.2.2.2 102400).1,
   (C8_total_chunks.2.2.2.2 102400).2 2 (by decide)⟩

/-! ## C9 — room password minimum length -/

/-- C9 (counterexample).  The claim says `setRoomPassword` with a length-5
password fails with `PasswordTooShort`.  No such check (or error) exists in
`CryptoManager.setRoomPassword`: the call succeeds and derives the room
key. -/
theorem C9_counterexample :
    setRoomPassword "abcde" "ROOM01" =
      .ok ("abcde", "clouddrop-room-ROOM01", true) := by
  rfl

/-- C9 (amended).  `CryptoManager.setRoomPassword` accepts any non-empty
password and room code, length 5 included; the 6-character minimum
(`ROOM.PASSWORD_MIN_LENGTH`) is enforced by the caller `createSecureRoom`,
whose validation rejects shorter passwords before `setRoomPassword` is
reached and passes a length-6 password with a valid room code. -/
theorem C9_password_length_amended (password roomCode : String)
    (hpw : password ≠ "") (hrc : roomCode ≠ "") :
    setRoomPassword password roomCode =
      .ok (password, "clouddrop-room-" ++ roomCode, true) ∧
    (password.length < PASSWORD_MIN_LENGTH →
      createSecureRoomValidation roomCode password = false) ∧
    createSecureRoomValidation "ROOM01" "abcdef" = true := by
  refine ⟨?_, ?_, by decide⟩
  · simp [setRoomPassword, hpw, hrc]
  · intro hlen
    simp [createSecureRoomValidation, hlen]

/-- C9 (witness): the amended behaviour at the length-5 password of the
claim. -/
theorem C9_witness :
    "abcde" ≠ "" ∧
      setRoomPassword "abcde" "ROOM01" =
        .ok ("abcde", "clouddrop-room-ROOM01", true) ∧
      createSecureRoomValidation "ROOM01" "abcde" = false :=
  ⟨by decide,
   (C9_password_length_amended "abcde" "ROOM01" (by decide) (by decide)).1,
   (C9_password_length_amended "abcde" "ROOM01" (by decide) (by decide)).2.1
     (by decide)⟩

/-! ## C6 — fast fallback timing and decision -/

/-- C6 (counterexample).  The claim says that with only relay-type
candidates the engine commits to relay *before* `FastFallbackTimeout`
expires.  In the code the quality prediction is only consulted inside the
fallback timer callback, which fires at `FAST_FALLBACK_TIMEOUT` itself: in
the relay-only scenario the commit time equals 5000 ms and is not below
it. -/
theorem C6_counterexample :
    relayCommitTime
        (fastFallbackDecision
          (finalizeConnectionQuality relayOnlyTypes
            (some (updateConnectionQuality relayOnlyTypes)))
          (some relayOnlyTypes) true "checking") = FAST_FALLBACK_TIMEOUT ∧
    ¬ relayCommitTime
        (fastFallbackDecision
          (finalizeConnectionQuality relayOnlyTypes
            (some (updateConnectionQuality relayOnlyTypes)))
          (some relayOnlyTypes) true "checking") < FAST_FALLBACK_TIMEOUT := by
  decide

/-- C6 (amended).  At the `FastFallbackTimeout` (5 s) decision point — not
earlier — the engine commits to relay when only relay-type candidates were
gathered or none at all (so it does not wait out the full
`ConnectionTimeout` of 10 s); when host, srflx or prflx candidates are
present *and* the ICE connection is in a progressing state, the direct
attempt is granted an extension instead (the next commit is only the
unconditional one at `ConnectionTimeout`). -/
theorem C6_fallback_amended (types : CandTypes) (q : Option ConnQuality)
    (ice : String) (pcExists : Bool) :
    (types.relay = true → types.host = false → types.srflx = false →
      types.prflx = false →
      relayCommitTime
          (fastFallbackDecision (some (updateConnectionQuality types))
            (some types) pcExists ice) = FAST_FALLBACK_TIMEOUT ∧
        FAST_FALLBACK_TIMEOUT < CONNECTION_TIMEOUT) ∧
    (types.isEmpty = true →
      relayCommitTime
          (fastFallbackDecision (finalizeConnectionQuality types q)
            (some types) pcExists ice) = FAST_FALLBACK_TIMEOUT ∧
        FAST_FALLBACK_TIMEOUT < CONNECTION_TIMEOUT) ∧
    ((types.host || types.srflx || types.prflx) = true → pcExists = true →
      iceStateGood ice = true →
      relayCommitTime
          (fastFallbackDecision (some (updateConnectionQuality types))
            (some types) pcExists ice) = CONNECTION_TIMEOUT) := by
  refine ⟨?_, ?_, ?_⟩
  · intro h1 h2 h3 h4
    simp [relayCommitTime, fastFallbackDecision, shouldFastFallback,
      updateConnectionQuality, hasP2PProgress, h1, h2, h3, h4,
      FAST_FALLBACK_TIMEOUT, CONNECTION_TIMEOUT]
  · intro hempty
    simp [relayCommitTime, fastFallbackDecision, shouldFastFallback,
      finalizeConnectionQuality, hempty, FAST_FALLBACK_TIMEOUT,
      CONNECTION_TIMEOUT]
  · intro hcand hpc hice
    simp [relayCommitTime, fastFallbackDecision, shouldFastFallback,
      updateConnectionQuality, hasP2PProgress, hcand, hpc, hice]

/-- C6 (witness): the amended decision evaluated in the relay-only
scenario and in a host-candidate scenario with checking ICE state. -/
theorem C6_witness :
    relayOnlyTypes.relay = true ∧
      relayCommitTime
          (fastFallbackDecision
            (some (updateConnectionQuality relayOnlyTypes))
            (some relayOnlyTypes) true "checking") = FAST_FALLBACK_TIMEOUT ∧
      relayCommitTime
          (fastFallbackDecision
            (some (updateConnectionQuality
              { host := true, srflx := false, prflx := false, relay := true }))
            (some { host := true, srflx := false, prflx := false, relay := true })
            true "checking") = CONNECTION_TIMEOUT :=
  ⟨rfl,
   ((C6_fallback_amended relayOnlyTypes none "checking" true).1 rfl rfl rfl rfl).1,
   (C6_fallback_amended
     { host := true, srflx := false, prflx := false, relay := true }
     none "checking" true).2.2 (by decide) rfl (by decide)⟩

/-! ## C7 — auto-assigned room codes -/

set_option maxRecDepth 4000 in
theorem jsHexByte_length : ∀ b < 256, (jsHexByte b).length = 2 := by decide

theorem hexOfBytes_length (l : List Nat) (hl : IsBytes l) :
    (hexOfBytes l).length = 2 * l.length := by
  induction l with
  | nil => rfl
  | cons a l ih =>
    have ha : a < 256 := hl a (List.mem_cons_self a l)
    have hl' : IsBytes l := fun b hb => hl b (List.mem_cons_of_mem a hb)
    have : hexOfBytes (a :: l) = jsHexByte a ++ hexOfBytes l := rfl
    rw [this, List.length_append, jsHexByte_length a ha, ih hl',
      List.length_cons]
    ring

theorem hexOfBytes_take (l : List Nat) (hl : IsBytes l) (n : Nat) :
    hexOfBytes (l.take n) = (hexOfBytes l).take (2 * n) := by
  induction l generalizing n with
  | nil => simp [hexOfBytes]
  | cons a l ih =>
    have ha : a < 256 := hl a (List.mem_cons_self a l)
    have hl' : IsBytes l := fun b hb => hl b (List.mem_cons_of_mem a hb)
    cases n with
    | zero => simp [hexOfBytes]
    | succ n =>
      have h2 : (jsHexByte a).length = 2 := jsHexByte_length a ha
      have h4 : (jsHexByte a).take (2 * (n + 1)) = jsHexByte a :=
        List.take_of_length_le (by omega)
      have h5 : 2 * (n + 1) - (jsHexByte a).length = 2 * n := by omega
      calc hexOfBytes ((a :: l).take (n + 1))
          = jsHexByte a ++ hexOfBytes (l.take n) := rfl
        _ = jsHexByte a ++ (hexOfBytes l).take (2 * n) := by rw [ih hl' n]
        _ = (jsHexByte a).take (2 * (n + 1)) ++
              (hexOfBytes l).take (2 * (n + 1) - (jsHexByte a).length) := by
            rw [h4, h5]
        _ = (jsHexByte a ++ hexOfBytes l).take (2 * (n + 1)) := by
            rw [List.take_append_eq_append_take]
        _ = (hexOfBytes (a :: l)).take (2 * (n + 1)) := rfl

theorem digestCex_spec (s : String) :
    (digestCex s).length = 32 ∧ IsBytes (digestCex s) := by
  unfold digestCex
  exact ⟨by decide, by decide⟩

/-- C7 (counterexample).  The claim says the first *eight* hex digits of
the SHA-256, upper-cased, become the room code.  With a concrete digest and
the IPv4 address `10.0.0.7`, `handleWebSocket` produces the 6-character
code `"000102"` (via `ipHash.substring(0, 6).toUpperCase()`), not the
8-character `"00010203"`. -/
theorem C7_counterexample :
    wsRoomCode digestCex none "10.0.0.7" = "000102" ∧
      specAutoRoomCode digestCex "10.0.0.7" 8 = "00010203" ∧
      wsRoomCode digestCex none "10.0.0.7" ≠
        specAutoRoomCode digestCex "10.0.0.7" 8 := by
  refine ⟨by decide, by decide, by decide⟩

/-- C7 (amended).  When no valid explicit room code is supplied, the room
code is obtained by SHA-256 hashing the network part of the client IP
(IPv4: first three octets; IPv6: first four 16-bit groups after `::`
expansion; loopback or unknown: the literal `localhost`) and taking the
first *six* hex digits of the hash, upper-cased — a 6-character code. -/
theorem C7_room_code_amended (digest : String → List Nat) (ip : String)
    (hd : ∀ s : String, (digest s).length = 32 ∧ IsBytes (digest s)) :
    wsRoomCode digest none ip = specAutoRoomCode digest ip 6 ∧
    (wsRoomCode digest none ip).length = 6 ∧
    networkPart "10.1.2.3" = "10.1.2" ∧
    networkPart "203.0.113.45" = "203.0.113" ∧
    networkPart "2001:db8:85a3::8a2e:370:7334" = "2001:0db8:85a3:0000" ∧
    networkPart "fe80::1" = "fe80:0000:0000:0000" ∧
    networkPart "127.0.0.1" = "localhost" ∧
    networkPart "::1" = "localhost" ∧
    networkPart "default" = "localhost" := by
  have hkey :
      wsRoomCode digest none ip = specAutoRoomCode digest ip 6 := by
    show wsAutoRoomCode digest ip = specAutoRoomCode digest ip 6
    unfold wsAutoRoomCode specAutoRoomCode generateRoomIdChars
    rw [show String.mk (networkPartChars ip.toList) = networkPart ip from rfl]
    rw [hexOfBytes_take _ (hd (networkPart ip)).2 8, List.take_take]
    norm_num
  refine ⟨hkey, ?_, by decide, by decide, by decide, by decide, by decide,
    by decide, by decide⟩
  rw [hkey]
  show (((hexOfBytes (digest (networkPart ip))).take 6).map Char.toUpper).length = 6
  rw [List.length_map, List.length_take,
    hexOfBytes_length _ (hd (networkPart ip)).2, (hd (networkPart ip)).1]
  omega

/-- C7 (witness): the amended statement at the concrete digest and the
IPv4 address `10.1.2.3`. -/
theorem C7_witness :
    (digestCex "10.1.2").length = 32 ∧ IsBytes (digestCex "10.1.2") ∧
      wsRoomCode digestCex none "10.1.2.3" = specAutoRoomCode digestCex "10.1.2.3" 6 ∧
      networkPart "10.1.2.3" = "10.1.2" :=
  ⟨by decide, by decide,
   (C7_room_code_amended digestCex "10.1.2.3" digestCex_spec).1,
   (C7_room_code_amended digestCex "10.1.2.3" digestCex_spec).2.2.1⟩

/-! ## C10 — receiver-side switch to relay mode -/

theorem relayPayloadStep_relayMode (dec : List Nat → Option (List Nat))
    (st : RecvState) (ev : RecvEvent) :
    (relayPayloadStep dec st ev).1.relayMode = st.relayMode := by
  cases ev <;> simp only [relayPayloadStep] <;> (repeat' split) <;> rfl

theorem relayPayloadStep_outs (dec : List Nat → Option (List Nat))
    (st : RecvState) (ev : RecvEvent) :
    ∀ o ∈ (relayPayloadStep dec st ev).2,
      (∃ fid acks, o = RecvOut.ackSent fid acks) ∨
      (∃ fid a m, o = RecvOut.delivered fid a m) := by
  cases ev <;> simp only [relayPayloadStep]
  case fileStart => simp
  case chunk fid i payload =>
    split
    · simp
    · split
      · split
        · simp
        · split
          · simp
          · split <;> simp
      · simp
  case fileEnd fid total =>
    split
    · simp
    · intro o ho
      simp only [List.mem_append] at ho
      rcases ho with ho | ho
      · split at ho <;> simp only [List.mem_singleton, List.not_mem_nil] at ho
        · exact Or.inl ⟨_, _, ho⟩
      · simp only [List.mem_singleton] at ho
        exact Or.inr ⟨_, _, _, ho⟩
  case ackFrame => simp
  case textMsg => simp

/-- C10.  On any relay-data frame from a peer not currently in relay mode,
the receiver sets relay mode, first notifies its observer with status
`relay` and a `null` message, then processes the payload exactly as it
would in relay mode — and it does not start the background P2P retry loop
(which `_switchToRelay` would: its output contains `retryLoopStarted`). -/
theorem C10_receiver_relay_switch (dec : List Nat → Option (List Nat))
    (st : RecvState) (ev : RecvEvent) (h : st.relayMode = false) :
    (handleRelayData dec st ev).1.relayMode = true ∧
    (handleRelayData dec st ev).2.head? = some (.notify "relay" none) ∧
    (handleRelayData dec st ev).2.tail =
      (relayPayloadStep dec { st with relayMode := true } ev).2 ∧
    RecvOut.retryLoopStarted ∉ (handleRelayData dec st ev).2 ∧
    RecvOut.retryLoopStarted ∈ (switchToRelay st (some "msg") false).2 := by
  have hmode := relayPayloadStep_relayMode dec { st with relayMode := true } ev
  have houts := relayPayloadStep_outs dec { st with relayMode := true } ev
  simp only [handleRelayData, h, Bool.false_eq_true, if_false]
  refine ⟨hmode, rfl, rfl, ?_, ?_⟩
  · intro hmem
    simp only [List.mem_cons] at hmem
    rcases hmem with hmem | hmem
    · exact RecvOut.noConfusion hmem
    · rcases houts _ hmem with ⟨_, _, heq⟩ | ⟨_, _, _, heq⟩ <;>
        exact RecvOut.noConfusion heq
  · simp [switchToRelay, h]

/-- C10 (witness): a chunk frame arriving at a fresh receiver. -/
theorem C10_witness :
    recvState0.relayMode = false ∧
      (handleRelayData (fun p => some p) recvState0
        (.chunk 1 0 [42])).1.relayMode = true ∧
      (handleRelayData (fun p => some p) recvState0
        (.chunk 1 0 [42])).2.head? = some (.notify "relay" none) :=
  ⟨rfl,
   (C10_receiver_relay_switch (fun p => some p) recvState0 (.chunk 1 0 [42]) rfl).1,
   (C10_receiver_relay_switch (fun p => some p) recvState0 (.chunk 1 0 [42]) rfl).2.1⟩

/-! ## C4 — relay receiver integrity -/

theorem countP_filterMap_pairs (g : Nat → Option (List Nat)) (i : Nat) :
    ∀ l : List Nat, l.Nodup →
      ((l.filterMap (fun j => (g j).map (fun b => (j, b)))).countP
        (fun p => p.1 == i)) = if i ∈ l ∧ (g i).isSome then 1 else 0 := by
  intro l
  induction l with
  | nil => intro _; simp
  | cons a l ih =>
    intro hnd
    rw [List.nodup_cons] at hnd
    rw [List.filterMap_cons]
    cases hga : g a with
    | none =>
      simp only [Option.map_none']
      rw [ih hnd.2]
      by_cases hia : i = a
      · subst hia; simp [hga, hnd.1]
      · simp [List.mem_cons, hia]
    | some b =>
      simp only [Option.map_some', List.countP_cons]
      rw [ih hnd.2]
      by_cases hia : i = a
      · subst hia; simp [hga, hnd.1]
      · have : (a == i) = false := by simp [Ne.symm hia]
        simp [List.mem_cons, hia, this]

theorem payload_chunk_inv (dec : List Nat → Option (List Nat))
    (st : RecvState) (t : RecvTransfer) (fid total fid' i : Nat)
    (payload : List Nat) (hst : st.transfer = some t)
    (hInv : t.Inv fid total) (hi : fid' = fid → i < total) :
    ∃ t', (relayPayloadStep dec st (.chunk fid' i payload)).1.transfer = some t' ∧
      t'.Inv fid total := by
  have hInv0 := hInv
  obtain ⟨hfid, htot, hnd, hiff, hbound⟩ := hInv
  simp only [relayPayloadStep, hst]
  split
  case isTrue hf =>
    split
    case isTrue hdup => exact ⟨t, hst, hInv0⟩
    case isFalse hdup =>
      split
      case h_1 => exact ⟨t, hst, hInv0⟩
      case h_2 bytes hdec =>
        have hnotmem : i ∉ t.receivedIndices := by
          intro hmem
          exact hdup (List.elem_eq_true_of_mem hmem)
        have hlt : i < total := hi (hf ▸ hfid)
        have hInvGen : ∀ pa : List Nat,
            RecvTransfer.Inv
              { t with
                chunks := fun j => if j = i then some bytes else t.chunks j
                received := t.received + bytes.length
                receivedIndices := t.receivedIndices ++ [i]
                pendingAcks := pa } fid total := by
          intro pa
          refine ⟨hfid, htot, ?_, ?_, ?_⟩
          · simp [List.nodup_append, hnd, hnotmem]
          · intro j
            by_cases hji : j = i
            · subst hji; simp
            · simp [List.mem_append, hji, hiff j]
          · intro j hj
            rcases List.mem_append.mp hj with hj | hj
            · exact hbound j hj
            · simp only [List.mem_singleton] at hj
              exact hj ▸ hlt
        split
        · exact ⟨_, rfl, hInvGen []⟩
        · exact ⟨_, rfl, hInvGen (t.pendingAcks ++ [i])⟩
  case isFalse hf => exact ⟨t, hst, hInv0⟩

theorem runRelayRecv_chunks_inv (dec : List Nat → Option (List Nat))
    (fid total : Nat) :
    ∀ evs : List RecvEvent, ChunkEventsFor fid total evs →
    ∀ (st : RecvState) (t : RecvTransfer), st.relayMode = true →
    st.transfer = some t → t.Inv fid total →
    ∃ t', (runRelayRecv dec st evs).1.relayMode = true ∧
      (runRelayRecv dec st evs).1.transfer = some t' ∧ t'.Inv fid total := by
  intro evs
  induction evs with
  | nil =>
    intro _ st t hmode hst hInv
    exact ⟨t, hmode, hst, hInv⟩
  | cons ev rest ih =>
    intro hevs st t hmode hst hInv
    obtain ⟨fid', i, payload, rfl, hi⟩ := hevs ev (List.mem_cons_self ev rest)
    have hstep : handleRelayData dec st (.chunk fid' i payload) =
        relayPayloadStep dec st (.chunk fid' i payload) := by
      simp [handleRelayData, hmode]
    obtain ⟨t1, ht1, hInv1⟩ :=
      payload_chunk_inv dec st t fid total fid' i payload hst hInv hi
    have hmode1 :
        (relayPayloadStep dec st (.chunk fid' i payload)).1.relayMode = true :=
      (relayPayloadStep_relayMode dec st _).trans hmode
    have hevs' : ChunkEventsFor fid total rest :=
      fun e he => hevs e (List.mem_cons_of_mem _ he)
    obtain ⟨t', hm', ht', hInv'⟩ := ih hevs' _ t1 hmode1 ht1 hInv1
    refine ⟨t', ?_, ?_, hInv'⟩
    · simpa [runRelayRecv, hstep] using hm'
    · simpa [runRelayRecv, hstep] using ht'

theorem payload_fileEnd_delivery (dec : List Nat → Option (List Nat))
    (st : RecvState) (t : RecvTransfer) (fid total : Nat)
    (hst : st.transfer = some t) (hInv : t.Inv fid total) :
    ∃ assembled missing,
      (relayPayloadStep dec st (.fileEnd fid total)).2.getLast? =
        some (.delivered fid assembled missing) ∧
      ∀ i < total,
        (assembled.countP (fun p => p.1 == i) = 1 ∧ i ∉ missing) ∨
        (assembled.countP (fun p => p.1 == i) = 0 ∧ i ∈ missing) := by
  obtain ⟨hfid, htot, hnd, hiff, hbound⟩ := hInv
  simp only [relayPayloadStep, hst]
  have hexp : (if total = 0 then t.totalChunks else total) = total := by
    by_cases h0 : total = 0
    · simp [h0, htot]
    · simp [h0]
  rw [hexp, hfid]
  refine ⟨_, _, List.getLast?_concat _, ?_⟩
  intro i hi
  have hcount := countP_filterMap_pairs t.chunks i (List.range total)
    (List.nodup_range total)
  by_cases hmem : i ∈ t.receivedIndices
  · left
    constructor
    · rw [hcount]
      simp [List.mem_range, hi, (hiff i).mp hmem]
    · intro hmiss
      split at hmiss
      · have := (List.mem_filter.mp hmiss).2
        simp only [decide_eq_true_eq] at this
        exact this (List.elem_eq_true_of_mem hmem)
      · exact List.not_mem_nil i hmiss
  · right
    have hne : t.receivedIndices.length ≠ total := by
      intro hlen
      have hsub : t.receivedIndices.toFinset ⊆ Finset.range total := by
        intro j hj
        rw [List.mem_toFinset] at hj
        exact Finset.mem_range.mpr (hbound j hj)
      have hcard : t.receivedIndices.toFinset.card = total := by
        rw [List.toFinset_card_of_nodup hnd, hlen]
      have heq : t.receivedIndices.toFinset = Finset.range total :=
        Finset.eq_of_subset_of_card_le hsub
          (by rw [hcard, Finset.card_range])
      have : i ∈ t.receivedIndices.toFinset := by
        rw [heq]; exact Finset.mem_range.mpr hi
      exact hmem (List.mem_toFinset.mp this)
    constructor
    · rw [hcount]
      have : ¬ (t.chunks i).isSome := fun hs => hmem ((hiff i).mpr hs)
      simp [this]
    · rw [if_pos hne]
      refine List.mem_filter.mpr ⟨List.mem_range.mpr hi, ?_⟩
      simp only [decide_eq_true_eq]
      intro hcon
      exact hmem (List.mem_of_elem_eq_true hcon)

theorem runRelayRecv_append (dec : List Nat → Option (List Nat))
    (st : RecvState) (l1 l2 : List RecvEvent) :
    runRelayRecv dec st (l1 ++ l2) =
      ((runRelayRecv dec (runRelayRecv dec st l1).1 l2).1,
       (runRelayRecv dec st l1).2 ++
         (runRelayRecv dec (runRelayRecv dec st l1).1 l2).2) := by
  induction l1 generalizing st with
  | nil => simp [runRelayRecv]
  | cons ev rest ih =>
    simp only [List.cons_append, runRelayRecv, List.append_eq]
    rw [ih]
    simp [List.append_assoc]

/-- C4.  For a relay transfer (`file-start`, any sequence of in-range chunk
frames — duplicates, decryption failures and foreign file ids included —
then `file-end`), the receiver delivers exactly one assembly in which every
index in `[0, totalChunks)` appears exactly once or is listed as missing
(the up-to-3-second grace wait only lets the late chunk frames of the trace
be processed before the check); and a duplicate chunk is not stored again
but is still acknowledged. -/
theorem C4_relay_receiver_integrity (dec : List Nat → Option (List Nat))
    (fid total : Nat) (evs : List RecvEvent)
    (hevs : ChunkEventsFor fid total evs) :
    (∃ assembled missing,
      (runRelayRecv dec recvState0
        (.fileStart fid total :: (evs ++ [.fileEnd fid total]))).2.getLast? =
        some (.delivered fid assembled missing) ∧
      ∀ i < total,
        (assembled.countP (fun p => p.1 == i) = 1 ∧ i ∉ missing) ∨
        (assembled.countP (fun p => p.1 == i) = 0 ∧ i ∈ missing)) ∧
    (∀ (st : RecvState) (t : RecvTransfer) (i : Nat) (payload : List Nat),
      st.relayMode = true → st.transfer = some t → i ∈ t.receivedIndices →
      handleRelayData dec st (.chunk t.fileId i payload) =
        (st, [.ackSent t.fileId [i]])) := by
  constructor
  · -- the run: file-start, chunks, file-end
    have hstart :
        handleRelayData dec recvState0 (.fileStart fid total) =
          ({ relayMode := true, transfer := some
              { fileId := fid, totalChunks := total, chunks := fun _ => none
                receivedIndices := [], pendingAcks := [], received := 0 } },
           [.notify "relay" none]) := by
      simp [handleRelayData, recvState0, relayPayloadStep]
    have hInv0 :
        RecvTransfer.Inv
          { fileId := fid, totalChunks := total, chunks := fun _ => none
            receivedIndices := [], pendingAcks := [], received := 0 }
          fid total := by
      refine ⟨rfl, rfl, List.nodup_nil, ?_, by simp⟩
      intro i; simp
    obtain ⟨t', hm', ht', hInv'⟩ :=
      runRelayRecv_chunks_inv dec fid total evs hevs
        { relayMode := true, transfer := some
            { fileId := fid, totalChunks := total, chunks := fun _ => none
              receivedIndices := [], pendingAcks := [], received := 0 } }
        { fileId := fid, totalChunks := total, chunks := fun _ => none
          receivedIndices := [], pendingAcks := [], received := 0 }
        rfl rfl hInv0
    obtain ⟨assembled, missing, hlast, hint⟩ :=
      payload_fileEnd_delivery dec
        (runRelayRecv dec
          { relayMode := true, transfer := some
              { fileId := fid, totalChunks := total, chunks := fun _ => none
                receivedIndices := [], pendingAcks := [], received := 0 } }
          evs).1
        t' fid total ht' hInv'
    refine ⟨assembled, missing, ?_, hint⟩
    have hendstep :
        handleRelayData dec
            (runRelayRecv dec
              { relayMode := true, transfer := some
                  { fileId := fid, totalChunks := total, chunks := fun _ => none
                    receivedIndices := [], pendingAcks := [], received := 0 } }
              evs).1 (.fileEnd fid total) =
          relayPayloadStep dec
            (runRelayRecv dec
              { relayMode := true, transfer := some
                  { fileId := fid, totalChunks := total, chunks := fun _ => none
                    receivedIndices := [], pendingAcks := [], received := 0 } }
              evs).1 (.fileEnd fid total) := by
      simp [handleRelayData, hm']
    have hne :
        (relayPayloadStep dec
          (runRelayRecv dec
            { relayMode := true, transfer := some
                { fileId := fid, totalChunks := total, chunks := fun _ => none
                  receivedIndices := [], pendingAcks := [], received := 0 } }
            evs).1 (.fileEnd fid total)).2 ≠ [] := by
      intro hnil
      rw [hnil] at hlast
      exact Option.noConfusion hlast
    simp only [runRelayRecv, hstart, runRelayRecv_append]
    simp only [runRelayRecv, hendstep, List.append_nil]
    rw [List.getLast?_append_of_ne_nil _
        (fun h => hne (List.append_eq_nil.mp h).2),
      List.getLast?_append_of_ne_nil _ hne]
    exact hlast
  · intro st t i payload hmode hst hmem
    have : handleRelayData dec st (.chunk t.fileId i payload) =
        relayPayloadStep dec st (.chunk t.fileId i payload) := by
      simp [handleRelayData, hmode]
    rw [this]
    have hc : t.receivedIndices.contains i = true :=
      List.elem_eq_true_of_mem hmem
    simp only [relayPayloadStep, hst, hc, if_true, if_pos rfl]

/-- C4 (witness): a 2-chunk transfer delivering chunk 0 only. -/
theorem C4_witness :
    ChunkEventsFor 7 2 [.chunk 7 0 [9]] ∧
      (∃ assembled missing,
        (runRelayRecv (fun p => some p) recvState0
          (.fileStart 7 2 :: ([.chunk 7 0 [9]] ++ [.fileEnd 7 2]))).2.getLast? =
          some (.delivered 7 assembled missing) ∧
        ∀ i < 2,
          (assembled.countP (fun p => p.1 == i) = 1 ∧ i ∉ missing) ∨
          (assembled.countP (fun p => p.1 == i) = 0 ∧ i ∈ missing)) :=
  ⟨fun ev hev => by
      simp only [List.mem_singleton] at hev
      exact ⟨7, 0, [9], hev, fun _ => by omega⟩,
   (C4_relay_receiver_integrity (fun p => some p) 7 2 [.chunk 7 0 [9]]
     (fun ev hev => by
       simp only [List.mem_singleton] at hev
       exact ⟨7, 0, [9], hev, fun _ => by omega⟩)).1⟩

/-! ## C3 — relay retransmission -/

theorem sleepStep_out (env : List (List Nat)) (st : SendState) (dur : Nat) :
    (sleepStep env st dur).out = st.out := by
  simp only [sleepStep]
  split <;> rfl

theorem sleepStep_chunkIndex (env : List (List Nat)) (st : SendState)
    (dur : Nat) : (sleepStep env st dur).chunkIndex = st.chunkIndex := by
  simp only [sleepStep]
  split <;> rfl

theorem sleepStep_pending_le (env : List (List Nat)) (st : SendState)
    (dur : Nat) : (sleepStep env st dur).pending.length ≤ st.pending.length := by
  simp only [sleepStep]
  split
  · exact le_refl _
  · exact List.length_filter_le _ _

theorem windowWaitLoop_below (env : List (List Nat)) (fuel : Nat)
    (st : SendState) (h : st.pending.length < WINDOW_SIZE) :
    windowWaitLoop env fuel st = .ok st ∨
      windowWaitLoop env fuel st = .outOfFuel st := by
  cases fuel with
  | zero => exact Or.inr rfl
  | succ f =>
    left
    rw [windowWaitLoop, if_pos h]

theorem ackWaitLoop_out (env : List (List Nat)) (totalChunks start : Nat) :
    ∀ (fuel : Nat) (st : SendState),
      ((ackWaitLoop env totalChunks start fuel st).finalState).out = st.out := by
  intro fuel
  induction fuel with
  | zero => intro st; rfl
  | succ f ih =>
    intro st
    rw [ackWaitLoop]
    split
    · split
      · rfl
      · rw [ih (sleepStep env st 100), sleepStep_out]
    · rfl

theorem noRetry_append_plain (l : List RelayFrame) (hl : NoRetryFrames l)
    (j : Nat) : NoRetryFrames (l ++ [RelayFrame.chunk j false]) := by
  intro i hmem
  rcases List.mem_append.mp hmem with hmem | hmem
  · exact hl i hmem
  · simp only [List.mem_singleton] at hmem
    exact RelayFrame.noConfusion hmem (fun _ hb => Bool.noConfusion hb)

theorem noRetry_append_fileEnd (l : List RelayFrame) (hl : NoRetryFrames l) :
    NoRetryFrames (l ++ [RelayFrame.fileEnd]) := by
  intro i hmem
  rcases List.mem_append.mp hmem with hmem | hmem
  · exact hl i hmem
  · simp only [List.mem_singleton] at hmem
    exact RelayFrame.noConfusion hmem

theorem relaySendLoop_noRetry (env : List (List Nat)) (totalChunks : Nat)
    (htot : totalChunks ≤ WINDOW_SIZE) :
    ∀ (fuel : Nat) (st : SendState),
      st.pending.length ≤ st.chunkIndex → NoRetryFrames st.out →
      NoRetryFrames ((relaySendLoop env totalChunks fuel st).finalState).out := by
  intro fuel
  induction fuel with
  | zero => intro st _ hout; exact hout
  | succ f ih =>
    intro st hpend hout
    rw [relaySendLoop]
    split
    case isFalse => exact hout
    case isTrue hidx =>
      have hwin : st.pending.length < WINDOW_SIZE := by omega
      rcases windowWaitLoop_below env f st hwin with hw | hw
      · simp only [hw]
        split
        case isTrue => exact hout
        case isFalse =>
          apply ih
          · rw [sleepStep_chunkIndex]
            calc (sleepStep env _ CHUNK_INTERVAL).pending.length
                ≤ st.pending.length + 1 := by
                  refine le_trans (sleepStep_pending_le env _ CHUNK_INTERVAL) ?_
                  simp
              _ ≤ st.chunkIndex + 1 := by omega
          · rw [sleepStep_out]
            exact noRetry_append_plain st.out hout st.chunkIndex
      · simp only [hw]
        exact hout

/-- C3 (counterexample).  In the spec's own scenario — a 10-chunk relay
transfer in which only chunk 5 goes unACKed — chunk 5 is never
retransmitted: retransmission only ever happens inside the
window-full wait, and with 10 = WindowSize chunks the window never blocks.
The sender's frame log contains no `retry = true` frame; after the final
ACK wait times out it sends `file-end` with chunk 5 still unacknowledged
(9 of 10 chunks ACKed), so the transfer does not complete cleanly either. -/
theorem C3_counterexample :
    (sendFileDataViaRelay lostChunkEnv 10 300).outFrames =
      [.fileStart, .chunk 0 false, .chunk 1 false, .chunk 2 false,
       .chunk 3 false, .chunk 4 false, .chunk 5 false, .chunk 6 false,
       .chunk 7 false, .chunk 8 false, .chunk 9 false, .fileEnd] ∧
    RelayFrame.chunk 5 true ∉ (sendFileDataViaRelay lostChunkEnv 10 300).outFrames ∧
    (sendFileDataViaRelay lostChunkEnv 10 300).finalState.acked =
      [0, 1, 2, 3, 4, 6, 7, 8, 9] :=
  ⟨by decide, by decide, by decide⟩

set_option maxRecDepth 8000 in
/-- C3 (amended).  Retransmission happens only inside the flow-control wait
(`pendingChunks.size ≥ WindowSize`): whenever that wait is active and no
ACK has arrived for more than AckTimeout, the oldest pending chunk is
resent with `retry = true` and its counter incremented, and once the oldest
pending chunk's counter has reached MaxChunkRetries (3) the transfer fails
with `RelayRetransmitExhausted` — in an 11-chunk transfer with a silent
receiver, each of the ten outstanding chunks is retransmitted three times
(chunk 0 three times) before the failure.  Consequently a transfer with at
most WindowSize (10) chunks never retransmits anything: in the claim's
10-chunk scenario with only chunk 5 unACKed, chunk 5 is not retransmitted
and the sender emits `file-end` with chunk 5 unacknowledged. -/
theorem C3_retransmission_amended :
    (∀ (env : List (List Nat)) (totalChunks fuel : Nat),
      totalChunks ≤ WINDOW_SIZE →
      NoRetryFrames (sendFileDataViaRelay env totalChunks fuel).outFrames) ∧
    (sendFileDataViaRelay silentEnv 11 400).errName =
      some "RelayRetransmitExhausted" ∧
    ((sendFileDataViaRelay silentEnv 11 400).outFrames.countP
      (fun f => f == RelayFrame.chunk 0 true)) = 3 ∧
    (sendFileDataViaRelay lostChunkEnv 10 300).isOk = true ∧
    RelayFrame.fileEnd ∈ (sendFileDataViaRelay lostChunkEnv 10 300).outFrames ∧
    (5 : Nat) ∉ (sendFileDataViaRelay lostChunkEnv 10 300).finalState.acked := by
  refine ⟨?_, by decide, by decide, by decide, by decide, by decide⟩
  intro env totalChunks fuel htot
  have hst0 : NoRetryFrames [RelayFrame.fileStart] := by
    intro i hmem
    simp only [List.mem_singleton] at hmem
    exact RelayFrame.noConfusion hmem
  have hloop := relaySendLoop_noRetry env totalChunks htot fuel
    { now := 0, lastAckTime := 0, chunkIndex := 0, pending := [], acked := []
      sleeps := 0, out := [.fileStart] } (by simp) hst0
  unfold sendFileDataViaRelay
  dsimp only []
  cases hrun : relaySendLoop env totalChunks fuel
      { now := 0, lastAckTime := 0, chunkIndex := 0, pending := [], acked := []
        sleeps := 0, out := [.fileStart] } with
  | ok st =>
    rw [hrun] at hloop
    dsimp only []
    cases hack : ackWaitLoop env totalChunks st.now fuel st with
    | ok st2 =>
      have hout2 : st2.out = st.out := by
        have h3 := ackWaitLoop_out env totalChunks st.now fuel st
        rw [hack] at h3
        exact h3
      show NoRetryFrames ((sleepStep env st2 500).out ++ [RelayFrame.fileEnd])
      rw [sleepStep_out, hout2]
      exact noRetry_append_fileEnd st.out hloop
    | failed e st2 =>
      have hout2 : st2.out = st.out := by
        have h3 := ackWaitLoop_out env totalChunks st.now fuel st
        rw [hack] at h3
        exact h3
      show NoRetryFrames st2.out
      rw [hout2]; exact hloop
    | outOfFuel st2 =>
      have hout2 : st2.out = st.out := by
        have h3 := ackWaitLoop_out env totalChunks st.now fuel st
        rw [hack] at h3
        exact h3
      show NoRetryFrames st2.out
      rw [hout2]; exact hloop
  | failed e st =>
    rw [hrun] at hloop
    exact hloop
  | outOfFuel st =>
    rw [hrun] at hloop
    exact hloop

/-- C3 (witness): the no-retransmission consequence applied to the claim's
10-chunk scenario. -/
theorem C3_witness :
    10 ≤ WINDOW_SIZE ∧
      NoRetryFrames (sendFileDataViaRelay lostChunkEnv 10 300).outFrames :=
  ⟨by decide, C3_retransmission_amended.1 lostChunkEnv 10 300 (by decide)⟩

end CloudDrop
